import Mathlib

/-!
# Verification of the Galata in-page test harness

Shallow embedding of `src/packages/galata/src/inpage/index.ts` (class
`JLabTestInpage`) and proofs about its operations: plugin resolution,
DOM-condition polling, cell-run synchronization, notebook cell
insertion/replacement, scroll prediction, and the sequential cell-by-cell
run orchestrator.

Asynchronous, timer-driven code is embedded as explicit step functions over
discrete time (milliseconds, `Nat`), with DOM observations supplied as a
timeline function; straight-line `await` sequencing is embedded as event
traces (lists of events in completion order).
-/

namespace Galata

/-! ## Plugin resolver (`getPlugin`, lines 36-58) -/

/-- One entry of the host application's internal `_pluginMap`:
an activation flag and the plugin's service object (abstracted as `Nat`). -/
structure PluginRecord where
  activated : Bool
  service : Nat
deriving DecidableEq

/-- The host `JupyterFrontEnd` application as seen by `getPlugin`:
the public registry query `hasPlugin` and the private `_pluginMap`
(which, being reached through an untyped cast, may be absent). -/
structure AppState where
  hasPluginFn : String → Bool
  pluginMap : Option (String → Option PluginRecord)

/-- `app.hasPlugin(pluginId)`. -/
def hasPlugin (app : AppState) (pluginId : String) : Bool :=
  app.hasPluginFn pluginId

/-- Settlement of the promise returned by `getPlugin`.
`resolvedNow`: resolved synchronously with the service (plugin already
activated). `resolvedAfterActivation`: resolved with the service only once
`activatePlugin` completed. `rejected` is never produced (the executor never
calls `reject`). `neverSettles`: no resolution path runs (unknown id, or the
internal lookup threw and the error was only logged). -/
inductive GetPluginOutcome
  | resolvedNow (service : Nat)
  | resolvedAfterActivation (service : Nat)
  | rejected
  | neverSettles
deriving DecidableEq

/-- `getPlugin(pluginId)` (lines 36-58).  `activationResponse` is the value
the host passes to the `.then(response => ...)` continuation of
`activatePlugin`; the source ignores it. -/
def getPlugin (app : AppState) (pluginId : String) (activationResponse : Nat) :
    GetPluginOutcome :=
  if hasPlugin app pluginId then
    -- `const plugin = appAny._pluginMap ? appAny._pluginMap[pluginId] : undefined`
    let plugin : Option PluginRecord :=
      match app.pluginMap with
      | some m => m pluginId
      | none => none
    match plugin with
    | some p =>
        if p.activated then .resolvedNow p.service
        else
          -- the `.then` callback ignores `activationResponse`
          .resolvedAfterActivation p.service
    | none =>
        -- `plugin.activated` throws; the catch block only logs the error,
        -- so the promise never settles
        .neverSettles
  else .neverSettles

/-! ## Notebook cell model and `setNotebookCell` / `addNotebookCell`
(lines 121-173) -/

/-- A notebook cell type (`nbformat.CellType`). -/
inductive CellKind
  | code
  | markdown
  | raw
deriving DecidableEq

/-- The data of one cell of the notebook model. -/
structure CellData where
  cell_type : CellKind
  source : String
deriving DecidableEq

/-- `nb.model.contentFactory.createCell(cellType, {cell: {cell_type, source,
metadata: \x7b\x7d}})`. -/
def createCell (cellType : CellKind) (source : String) : CellData :=
  { cell_type := cellType, source := source }

/-- The notebook content as seen through `nb.widgets` / `nb.model.cells`,
together with the active cell index. -/
structure NotebookState where
  cells : List CellData
  activeCellIndex : Nat
deriving DecidableEq

/-- One observable mutation of the notebook model performed by the harness. -/
inductive ModelOp
  | beginCompoundOperation
  | setCell (index : Nat) (cell : CellData)
  | endCompoundOperation
  | update
deriving DecidableEq

/-- Modelled from the spec: the host notebook's insert-below action
(`NotebookActions.insertBelow`, an external collaborator per spec §6):
with a nonempty cell list it inserts a fresh cell right after the active
cell and makes the inserted cell active; with no cells it does nothing. -/
def insertBelow (nb : NotebookState) : NotebookState :=
  if nb.cells.isEmpty then nb
  else
    { cells := nb.cells.insertIdx (nb.activeCellIndex + 1) (createCell .code ""),
      activeCellIndex := nb.activeCellIndex + 1 }

/-- `addNotebookCell(cellType, source)` (lines 130-150): insert below the
active cell, then replace the cell at index `numCells - 1` (the LAST index of
the post-insertion list) inside a compound operation, force an update, and
return `true`.  Result: returned boolean, new state, model operations. -/
def addNotebookCell (nb : NotebookState) (cellType : CellKind) (source : String) :
    Bool × NotebookState × List ModelOp :=
  let nb' := insertBelow nb
  let numCells := nb'.cells.length
  let c := createCell cellType source
  (true,
   { nb' with cells := nb'.cells.set (numCells - 1) c },
   [.beginCompoundOperation, .setCell (numCells - 1) c,
    .endCompoundOperation, .update])

/-- `setNotebookCell(cellIndex, cellType, source)` (lines 152-173):
out-of-range index returns `false` with no model mutation; otherwise the cell
at `cellIndex` is replaced inside a compound operation, an update is forced,
and the call returns `true`.  `cellIndex` is a JavaScript number, so `Int`. -/
def setNotebookCell (nb : NotebookState) (cellIndex : Int) (cellType : CellKind)
    (source : String) : Bool × NotebookState × List ModelOp :=
  let numCells := nb.cells.length
  if cellIndex < 0 ∨ cellIndex ≥ numCells then
    (false, nb, [])
  else
    let c := createCell cellType source
    (true,
     { nb with cells := nb.cells.set cellIndex.toNat c },
     [.beginCompoundOperation, .setCell cellIndex.toNat c,
      .endCompoundOperation, .update])

/-! ## Scroll prediction (`notebookWillScroll`, lines 297-302) -/

/-- The fields of `node.getBoundingClientRect()` used by the harness.
Client coordinates are JavaScript numbers; embedded as `ℚ`. -/
structure BoundingRect where
  top : ℚ
  height : ℚ
deriving DecidableEq

/-- `notebookWillScroll(notebook, position, threshold = 25)` (lines 297-302):
true iff the distance of `position` from the viewport's vertical center
exceeds `threshold`% of the viewport height. -/
def notebookWillScroll (rect : BoundingRect) (position : ℚ)
    (threshold : ℚ := 25) : Bool :=
  let delta := position - rect.top - rect.height / 2
  decide (|delta| > rect.height * threshold / 100)

/-! ## DOM condition waiter (`waitForSelector`, lines 80-98)

The DOM is observed only through `parent.querySelector(selector)`; one poll
tick's observation is an `Option Nat` (`some n`: a matching node, abstracted
by identity `n`; `none`: no match).  The whole run is driven by a timeline
`founds : Nat → Option Nat` giving the observation of tick `k` (tick `k`
happens at time `200 * (k+1)`: `setInterval` fires first after one period). -/

/-- `IWaitForSelectorOptions`. -/
structure WaitForSelectorOptions where
  hidden : Bool
deriving DecidableEq

/-- `const waitForHidden = options && options.hidden`. -/
def waitForHiddenOf (options : Option WaitForSelectorOptions) : Bool :=
  match options with
  | some o => o.hidden
  | none => false

/-- The body of one `setInterval` callback of `waitForSelector`
(lines 85-95): `some r` means the promise resolves with `r` on this tick
(`r = none`: resolved with no value, `r = some n`: resolved with node `n`);
`none` means polling continues. -/
def waitForSelectorTick (waitForHidden : Bool) (found : Option Nat) :
    Option (Option Nat) :=
  if waitForHidden then
    match found with
    | none => some none
    | some _ => none
  else
    match found with
    | some f => some (some f)
    | none => none

/-- `waitForSelector(selector, node, options)` run for at most `fuel` poll
ticks over the observation timeline `founds`: returns `some (k, r)` when the
promise resolves on tick `k` with value `r`, `none` if it is still polling
after `fuel` ticks. -/
def waitForSelector (founds : Nat → Option Nat)
    (options : Option WaitForSelectorOptions) : Nat → Nat → Option (Nat × Option Nat)
  | 0, _ => none
  | fuel + 1, k =>
    match waitForSelectorTick (waitForHiddenOf options) (founds k) with
    | some r => some (k, r)
    | none => waitForSelector founds options fuel (k + 1)

/-! ## Cell execution synchronizer (`waitForCellRun`, lines 226-295)

The code-cell branch polls `cell.node.querySelector('.jp-Cell-outputArea
.jp-OutputArea-output')`; one observation is an `Option String` (`some s`:
an output node whose `textContent` is `s`; `none`: no output node).  The DOM
is a timeline `dom : Nat → Option String` indexed by milliseconds.
`checkIfDone()` is called once synchronously at time 0 and then every 200 ms
by `setInterval`, so checks happen at times `200 * k`.  The one-shot
`setTimeout` armed on seeing the loading placeholder fires `timeoutMs` after
arming; when its expiry coincides exactly with an interval tick, the timer
registered first fires first: a timeout armed during the synchronous first
check (armed at time 0) precedes the interval, a timeout armed on a later
tick follows that tick's check. -/

/-- `'Loading widget...'` (line 275). -/
def loadingPlaceholder : String := "Loading widget..."

/-- `const emptyPrompt = '[ ]:'` (line 233). -/
def emptyPrompt : String := "[ ]:"

/-- `const runningPrompt = '[*]:'` (line 234). -/
def runningPrompt : String := "[*]:"

/-- `xpContainsClass(className)` (lines 27-29). -/
def xpContainsClass (className : String) : String :=
  "contains(concat(\" \", normalize-space(@class), \" \"), \" " ++ className ++ " \")"

/-- The XPath used for the prompt-marker waits (lines 236-241). -/
def promptXPath (marker : String) : String :=
  ".//div[" ++ xpContainsClass "jp-InputArea-prompt" ++
    " and text()=\"" ++ marker ++ "\"]"

/-- Mutable state of the code-cell polling promise (lines 251-253):
`numTries`, and the arming time of `timeoutTimer` (`none` = not armed). -/
structure PollSt where
  numTries : Nat
  armedAt : Option Nat
deriving DecidableEq

/-- How the code-cell polling promise resolves: with the output node's text at
time `t`, with `null` at time `t`, or not within the modelled fuel. -/
inductive PollResolution
  | output (t : Nat) (text : String)
  | nothing (t : Nat)
  | outOfFuel
deriving DecidableEq

/-- One execution of `checkIfDone` (lines 271-286) at time `t`:
either the promise resolves (`.inl`) or polling continues in a new state
(`.inr`; `startTimeout` arms the one-shot at most once, and `numTries` is
incremented at the end of every check). -/
def checkIfDone (dom : Nat → Option String) (t : Nat) (s : PollSt) :
    PollResolution ⊕ PollSt :=
  match dom t with
  | some text =>
    if text = loadingPlaceholder then
      .inr { numTries := s.numTries + 1,
             armedAt := match s.armedAt with
                        | some a => some a
                        | none => some t }
    else .inl (.output t text)
  | none =>
    if 0 < s.numTries then .inl (.nothing t)
    else .inr { numTries := s.numTries + 1, armedAt := s.armedAt }

/-- Whether the one-shot timeout fires before the check of the tick at time
`t`: its expiry lies strictly inside the previous interval, or exactly on `t`
while it was registered before the interval (armed at time 0). -/
def timeoutFired (timeoutMs t : Nat) : Option Nat → Bool
  | some a => decide (a + timeoutMs < t) || (decide (a + timeoutMs = t) && decide (a = 0))
  | none => false

/-- Whether the one-shot timeout fires right after the check of the tick at
time `t` (expiry exactly at `t`, timer registered after the interval). -/
def timeoutTied (timeoutMs t : Nat) : Option Nat → Bool
  | some a => decide (a + timeoutMs = t)
  | none => false

/-- Expiry time of an armed timeout. -/
def expiryOf (timeoutMs : Nat) : Option Nat → Nat
  | some a => a + timeoutMs
  | none => 0

/-- One scheduling round at tick time `t`: a due timeout (fired between the
previous tick and this one, or tied-and-registered-first) resolves `null` at
its expiry time; otherwise `checkIfDone` runs, and a timeout tied to this very
tick fires right after a non-resolving check. -/
def pollStep (dom : Nat → Option String) (timeoutMs t : Nat) (s : PollSt) :
    PollResolution ⊕ PollSt :=
  if timeoutFired timeoutMs t s.armedAt then
    .inl (.nothing (expiryOf timeoutMs s.armedAt))
  else
    match checkIfDone dom t s with
    | .inl r => .inl r
    | .inr s' =>
      if timeoutTied timeoutMs t s'.armedAt then
        .inl (.nothing (expiryOf timeoutMs s'.armedAt))
      else .inr s'

/-- The code-cell polling promise (lines 250-293), run from check index `k`
for at most `fuel` checks (check `k` happens at time `200 * k`). -/
def pollRun (dom : Nat → Option String) (timeoutMs : Nat) :
    Nat → Nat → PollSt → PollResolution
  | 0, _, _ => .outOfFuel
  | fuel + 1, k, s =>
    match pollStep dom timeoutMs (200 * k) s with
    | .inl r => r
    | .inr s' => pollRun dom timeoutMs fuel (k + 1) s'

/-- The parts of a `Cell` consulted by `waitForCellRun`: `cell.model.type`
and `cell.model.value.text`. -/
structure CellInfo where
  kind : CellKind
  sourceText : String
deriving DecidableEq

/-- The awaited sub-operations of `waitForCellRun`, in completion order. -/
inductive WfcrAction
  | waitHiddenXPath (selector : String)
  | waitMarkdownRendered
  | pollOutput
deriving DecidableEq

/-- The value `waitForCellRun` resolves with. -/
inductive WfcrResult
  | node (t : Nat) (text : String)
  | null
  | outOfFuel
deriving DecidableEq

/-- `waitForCellRun(cell, timeout = 2000)` (lines 226-295): an
empty/whitespace-only source (`!code.trim()`) returns `null` at once;
otherwise the two prompt-marker hidden waits run, then the branch on the cell
kind (markdown render wait, raw immediate `null`, or the code-cell output
polling loop over the timeline `dom`).  Returns the awaited actions in order
together with the resolution. -/
def waitForCellRun (cell : CellInfo) (dom : Nat → Option String)
    (fuel : Nat) (timeoutMs : Nat := 2000) : List WfcrAction × WfcrResult :=
  if cell.sourceText.toList.all Char.isWhitespace then ([], .null)
  else
    let promptWaits := [WfcrAction.waitHiddenXPath (promptXPath emptyPrompt),
                        WfcrAction.waitHiddenXPath (promptXPath runningPrompt)]
    match cell.kind with
    | .markdown => (promptWaits ++ [.waitMarkdownRendered], .null)
    | .raw => (promptWaits, .null)
    | .code =>
      (promptWaits ++ [.pollOutput],
       match pollRun dom timeoutMs fuel 0 ⟨0, none⟩ with
       | .output t text => .node t text
       | .nothing _ => .null
       | .outOfFuel => .outOfFuel)

/-! ## Sequential run orchestrator (`runActiveNotebookCellByCell`,
lines 297-353)

The per-iteration interaction with the host is captured by a `CellEnv`
(what the DOM and the synchronizer return for that cell), and the whole run
by the trace of awaited events in completion order. -/

/-- `INotebookRunCallback` as consulted by the orchestrator: which of the
three optional callbacks are supplied. -/
structure NotebookRunCallback where
  hasOnAfterCellRun : Bool
  hasOnBeforeScroll : Bool
  hasOnAfterScroll : Bool
deriving DecidableEq

/-- Host-side observations of iteration `i` of the orchestrator loop:
the notebook viewport rectangle, the bottoms of the output-area and
input-area rectangles, whether `waitForCellRun` returned an output node, and
the viewport `scrollTop` before and after `scrollToPosition` + `update`. -/
structure CellEnv where
  nbRect : BoundingRect
  outputAreaBottom : ℚ
  inputAreaBottom : ℚ
  hasOutput : Bool
  prevScroll : ℚ
  newScroll : ℚ
deriving DecidableEq

/-- Events of the orchestrator trace, in completion order. -/
inductive OrchEvent
  | deselectAll
  | setActiveCellIndex (i : Nat)
  | selectCell (i : Nat)
  | runCell (i : Nat)
  | waitCellRun (i : Nat)
  | onAfterCellRun (i : Nat)
  | onBeforeScroll (i : Nat)
  | scrollToPosition (position threshold : ℚ)
  | update
  | logScrollMispredicted (i : Nat)
  | onAfterScroll (i : Nat)
deriving DecidableEq

/-- One iteration of the orchestrator loop (lines 318-352) for cell `i`. -/
def runCellStep (i : Nat) (cb : Option NotebookRunCallback) (env : CellEnv) :
    List OrchEvent :=
  let rectBottom := if env.hasOutput then env.outputAreaBottom else env.inputAreaBottom
  let scrollThreshold : ℚ := 45
  let willScroll := notebookWillScroll env.nbRect rectBottom scrollThreshold
  [.setActiveCellIndex i, .selectCell i, .runCell i, .waitCellRun i]
  ++ (match cb with
      | some c => if c.hasOnAfterCellRun then [.onAfterCellRun i] else []
      | none => [])
  ++ (match cb with
      | some c => if willScroll && c.hasOnBeforeScroll then [.onBeforeScroll i] else []
      | none => [])
  ++ [.scrollToPosition rectBottom scrollThreshold, .update]
  ++ (match cb with
      | some c =>
        if willScroll && c.hasOnAfterScroll then
          (if env.newScroll ≠ env.prevScroll then [.logScrollMispredicted i] else [])
            ++ [.onAfterScroll i]
        else []
      | none => [])

/-- The orchestrator's `for` loop: `count` remaining iterations starting at
cell index `i`. -/
def orchLoop (cb : Option NotebookRunCallback) (envs : Nat → CellEnv) :
    Nat → Nat → List OrchEvent
  | 0, _ => []
  | count + 1, i => runCellStep i cb (envs i) ++ orchLoop cb envs count (i + 1)

/-- `runActiveNotebookCellByCell(callback)` (lines 304-353): returns
immediately on an empty notebook, otherwise deselects all cells and runs the
loop over every cell index. -/
def runActiveNotebookCellByCell (numCells : Nat) (cb : Option NotebookRunCallback)
    (envs : Nat → CellEnv) : List OrchEvent :=
  if numCells = 0 then []
  else .deselectAll :: orchLoop cb envs numCells 0

/-- Projection keeping only cell-run triggers (`.inl i` for `runCell i`) and
post-run callback invocations (`.inr i` for `onAfterCellRun i`). -/
def runAfterKey : OrchEvent → Option (Nat ⊕ Nat)
  | .runCell i => some (.inl i)
  | .onAfterCellRun i => some (.inr i)
  | _ => none

/-- The expected run/post-run interleaving for `count` cells starting at
index `i`: run 0, after 0, run 1, after 1, ... -/
def runAfterSeq : Nat → Nat → List (Nat ⊕ Nat)
  | 0, _ => []
  | count + 1, i => .inl i :: .inr i :: runAfterSeq count (i + 1)

/-- A sample plugin map: one activated plugin, one registered-but-inactive
plugin, everything else absent. -/
def samplePluginMap : String → Option PluginRecord :=
  fun pluginId =>
    if pluginId = "router" then some { activated := true, service := 7 }
    else if pluginId = "docmanager" then some { activated := false, service := 8 }
    else none

/-- A sample application whose registry is consistent with its plugin map. -/
def sampleApp : AppState :=
  { hasPluginFn := fun pluginId => (samplePluginMap pluginId).isSome,
    pluginMap := some samplePluginMap }

end Galata

namespace Galata

/-! ## Theorems: C3 (setNotebookCell), C10 (addNotebookCell), C8 (scroll
prediction) -/

/-- **C3.** For every index with `index < 0` or `index >= cellCount`,
`setNotebookCell` returns `false` and performs no mutation of the notebook
model (no compound operation, no cell replacement, no forced update); for
every in-range index it replaces the cell at that index and returns `true`. -/
theorem setNotebookCell_out_of_range_no_mutation
    (nb : NotebookState) (cellIndex : Int) (cellType : CellKind) (source : String) :
    ((cellIndex < 0 ∨ cellIndex ≥ nb.cells.length) →
      setNotebookCell nb cellIndex cellType source = (false, nb, [])) ∧
    (0 ≤ cellIndex → cellIndex < nb.cells.length →
      setNotebookCell nb cellIndex cellType source =
        (true,
         { nb with cells := nb.cells.set cellIndex.toNat (createCell cellType source) },
         [.beginCompoundOperation,
          .setCell cellIndex.toNat (createCell cellType source),
          .endCompoundOperation, .update])) := by
  constructor
  · intro h
    simp only [setNotebookCell]
    rw [if_pos h]
  · intro h0 hlt
    simp only [setNotebookCell]
    rw [if_neg]
    push_neg
    exact ⟨h0, hlt⟩

/-- Witness for C3 on a concrete notebook: index 5 is rejected without
mutation, index 1 replaces the cell and returns true. -/
theorem setNotebookCell_out_of_range_no_mutation_witness :
    (setNotebookCell ⟨[⟨.code, "a"⟩, ⟨.raw, "b"⟩], 0⟩ 5 .markdown "x" =
      (false, ⟨[⟨.code, "a"⟩, ⟨.raw, "b"⟩], 0⟩, [])) ∧
    (setNotebookCell ⟨[⟨.code, "a"⟩, ⟨.raw, "b"⟩], 0⟩ 1 .markdown "x" =
      (true, ⟨[⟨.code, "a"⟩, ⟨.markdown, "x"⟩], 0⟩,
       [.beginCompoundOperation, .setCell 1 ⟨.markdown, "x"⟩,
        .endCompoundOperation, .update])) := by
  refine ⟨(setNotebookCell_out_of_range_no_mutation _ 5 .markdown "x").1 (by decide), ?_⟩
  have h := (setNotebookCell_out_of_range_no_mutation
    ⟨[⟨.code, "a"⟩, ⟨.raw, "b"⟩], 0⟩ 1 .markdown "x").2 (by decide) (by decide)
  simpa [createCell] using h

/-- **C10.** `addNotebookCell(cellType, source)` returns `true` for every cell
type and source (no failure return path), and the single cell replacement it
performs is at the last index of the post-insertion cell list — which equals
the pre-insertion length, independent of which cell was active. -/
theorem addNotebookCell_replaces_last
    (nb : NotebookState) (cellType : CellKind) (source : String)
    (hactive : nb.activeCellIndex < nb.cells.length) :
    (addNotebookCell nb cellType source).1 = true ∧
    (addNotebookCell nb cellType source).2.2 =
      [.beginCompoundOperation,
       .setCell ((insertBelow nb).cells.length - 1) (createCell cellType source),
       .endCompoundOperation, .update] ∧
    (insertBelow nb).cells.length - 1 = nb.cells.length ∧
    (addNotebookCell nb cellType source).2.1.cells.length = nb.cells.length + 1 ∧
    (addNotebookCell nb cellType source).2.1.cells[nb.cells.length]? =
      some (createCell cellType source) := by
  have hne : ¬ nb.cells.isEmpty := by
    cases h : nb.cells with
    | nil => rw [h] at hactive; simp at hactive
    | cons a l => simp [h]
  have hlen : (insertBelow nb).cells.length = nb.cells.length + 1 := by
    simp only [insertBelow, if_neg hne]
    rw [List.length_insertIdx _ _ (by omega)]
  refine ⟨rfl, ?_, ?_, ?_, ?_⟩
  · simp [addNotebookCell]
  · omega
  · simp only [addNotebookCell, List.length_set]
    exact hlen
  · simp only [addNotebookCell]
    have : (insertBelow nb).cells.length - 1 = nb.cells.length := by omega
    rw [this, List.getElem?_set_eq_of_lt _ (by omega)]

/-- Witness for C10: active cell in the middle (index 0 of 2); the inserted
list has length 3 and the cell replaced is at index 2 (the last), not below
the active cell. -/
theorem addNotebookCell_replaces_last_witness :
    (addNotebookCell ⟨[⟨.code, "a"⟩, ⟨.raw, "b"⟩], 0⟩ .markdown "m").1 = true ∧
    (addNotebookCell ⟨[⟨.code, "a"⟩, ⟨.raw, "b"⟩], 0⟩ .markdown "m").2.2 =
      [.beginCompoundOperation, .setCell 2 (createCell .markdown "m"),
       .endCompoundOperation, .update] ∧
    (addNotebookCell ⟨[⟨.code, "a"⟩, ⟨.raw, "b"⟩], 0⟩ .markdown "m").2.1.cells[2]? =
      some (createCell .markdown "m") := by
  have h := addNotebookCell_replaces_last ⟨[⟨.code, "a"⟩, ⟨.raw, "b"⟩], 0⟩
    .markdown "m" (by decide)
  refine ⟨h.1, ?_, ?_⟩
  · have h2 := h.2.1
    have h3 := h.2.2.1
    rw [h3] at h2
    exact h2
  · exact h.2.2.2.2

/-- **C8.** `notebookWillScroll(notebook, position, threshold)` is true iff
the absolute vertical distance of `position` from the viewport center
`top + height/2` strictly exceeds `threshold` percent of the viewport height;
the default threshold is 25; and with `top = 100`, `height = 400`,
`threshold = 45`, position 700 predicts a scroll while 310 does not. -/
theorem notebookWillScroll_iff :
    (∀ (rect : BoundingRect) (position threshold : ℚ),
      notebookWillScroll rect position threshold = true ↔
        |position - (rect.top + rect.height / 2)| > threshold / 100 * rect.height) ∧
    (∀ (rect : BoundingRect) (position : ℚ),
      notebookWillScroll rect position = notebookWillScroll rect position 25) ∧
    notebookWillScroll ⟨100, 400⟩ 700 45 = true ∧
    notebookWillScroll ⟨100, 400⟩ 310 45 = false := by
  refine ⟨?_, fun _ _ => rfl, ?_, ?_⟩
  case refine_2 =>
    simp only [notebookWillScroll, decide_eq_true_eq]
    rw [show (700 : ℚ) - 100 - 400 / 2 = 400 by norm_num,
      abs_of_nonneg (by norm_num : (0 : ℚ) ≤ 400)]
    norm_num
  case refine_3 =>
    simp only [notebookWillScroll, decide_eq_false_iff_not, not_lt]
    rw [show (310 : ℚ) - 100 - 400 / 2 = 10 by norm_num,
      abs_of_nonneg (by norm_num : (0 : ℚ) ≤ 10)]
    norm_num
  intro rect position threshold
  simp only [notebookWillScroll, decide_eq_true_eq]
  constructor
  · intro h
    calc threshold / 100 * rect.height = rect.height * threshold / 100 := by ring
    _ < |position - rect.top - rect.height / 2| := h
    _ = |position - (rect.top + rect.height / 2)| := by ring_nf
  · intro h
    calc rect.height * threshold / 100 = threshold / 100 * rect.height := by ring
    _ < |position - (rect.top + rect.height / 2)| := h
    _ = |position - rect.top - rect.height / 2| := by ring_nf

/-- **C2.** When the registry reports the id known, `getPlugin` resolves with
the plugin's service: synchronously if already activated, otherwise only
after `activatePlugin` completes, and the resolved value does not depend on
the activation response payload; when the registry reports the id unknown,
the promise neither resolves nor rejects.  (The plugin map is assumed
consistent with the public `hasPlugin` query, as in the host registry.) -/
theorem getPlugin_resolution
    (app : AppState) (pluginId : String) (activationResponse : Nat)
    (m : String → Option PluginRecord)
    (hmap : app.pluginMap = some m)
    (hconsistent : ∀ pid, app.hasPluginFn pid = (m pid).isSome) :
    (∀ p, m pluginId = some p →
      (p.activated = true →
        getPlugin app pluginId activationResponse = .resolvedNow p.service) ∧
      (p.activated = false →
        getPlugin app pluginId activationResponse =
          .resolvedAfterActivation p.service)) ∧
    (hasPlugin app pluginId = false →
      getPlugin app pluginId activationResponse = .neverSettles) ∧
    (∀ r r', getPlugin app pluginId r = getPlugin app pluginId r') := by
  refine ⟨?_, ?_, fun r r' => rfl⟩
  · intro p hp
    have hhas : hasPlugin app pluginId = true := by
      simp [hasPlugin, hconsistent, hp]
    constructor <;> intro hact <;> simp [getPlugin, hhas, hmap, hp, hact]
  · intro hhas
    simp [getPlugin, hhas]

/-- Witness for C2 on `sampleApp`: the activated plugin resolves now with its
service, the inactive one resolves after activation (same value for two
distinct activation responses), and an unregistered id never settles. -/
theorem getPlugin_resolution_witness :
    getPlugin sampleApp "router" 0 = .resolvedNow 7 ∧
    getPlugin sampleApp "docmanager" 0 = .resolvedAfterActivation 8 ∧
    getPlugin sampleApp "docmanager" 0 = getPlugin sampleApp "docmanager" 1 ∧
    getPlugin sampleApp "ghost" 0 = .neverSettles := by
  have hrouter := getPlugin_resolution sampleApp "router" 0 samplePluginMap rfl
    (fun _ => rfl)
  have hdoc := getPlugin_resolution sampleApp "docmanager" 0 samplePluginMap rfl
    (fun _ => rfl)
  have hghost := getPlugin_resolution sampleApp "ghost" 0 samplePluginMap rfl
    (fun _ => rfl)
  exact ⟨(hrouter.1 _ rfl).1 rfl, (hdoc.1 _ rfl).2 rfl, hdoc.2.2 0 1,
    hghost.2.1 rfl⟩

/-- With `hidden: true`, a resolution of `waitForSelector` can only happen on
a tick observing no match, and the resolved value carries no node. -/
theorem waitForSelector_hidden_resolve_aux (founds : Nat → Option Nat) :
    ∀ fuel start k r,
      waitForSelector founds (some ⟨true⟩) fuel start = some (k, r) →
      founds k = none ∧ r = none := by
  intro fuel
  induction fuel with
  | zero => intro start k r h; simp [waitForSelector] at h
  | succ n ih =>
    intro start k r h
    rw [waitForSelector] at h
    cases hf : founds start with
    | none =>
      rw [hf] at h
      simp [waitForSelectorTick, waitForHiddenOf] at h
      obtain ⟨hk, hr⟩ := h
      exact ⟨hk ▸ hf, hr.symm⟩
    | some node =>
      rw [hf] at h
      simp only [waitForSelectorTick, waitForHiddenOf, if_pos] at h
      exact ih (start + 1) k r h

/-- With `hidden: true`, `waitForSelector` resolves on the first tick whose
observation has no match. -/
theorem waitForSelector_hidden_first_aux (founds : Nat → Option Nat) :
    ∀ fuel start k, start ≤ k → k < start + fuel → founds k = none →
      (∀ j, start ≤ j → j < k → founds j ≠ none) →
      waitForSelector founds (some ⟨true⟩) fuel start = some (k, none) := by
  intro fuel
  induction fuel with
  | zero => intro start k h1 h2; omega
  | succ n ih =>
    intro start k h1 h2 hk hprev
    rw [waitForSelector]
    rcases Nat.eq_or_lt_of_le h1 with heq | hlt
    · subst heq
      rw [hk]
      simp [waitForSelectorTick, waitForHiddenOf]
    · have hs : founds start ≠ none := hprev start le_rfl hlt
      cases hf : founds start with
      | none => exact absurd hf hs
      | some node =>
        simp only [waitForSelectorTick, waitForHiddenOf, if_pos]
        exact ih (start + 1) k hlt (by omega) hk
          (fun j hj hjk => hprev j (by omega) hjk)

/-- **C9.** `waitForSelector(selector, node, \x7bhidden: true\x7d)` never
resolves on a poll tick at which the selector still matches some node, and
resolves, with no value, on the first poll tick at which the selector matches
nothing. -/
theorem waitForSelector_hidden_resolves_on_removal
    (founds : Nat → Option Nat) (fuel k : Nat) :
    (∀ r, waitForSelector founds (some ⟨true⟩) fuel 0 = some (k, r) →
      founds k = none ∧ r = none) ∧
    (k < fuel → founds k = none → (∀ j, j < k → founds j ≠ none) →
      waitForSelector founds (some ⟨true⟩) fuel 0 = some (k, none)) := by
  constructor
  · intro r h
    exact waitForSelector_hidden_resolve_aux founds fuel 0 k r h
  · intro hfuel hk hprev
    exact waitForSelector_hidden_first_aux founds fuel 0 k (Nat.zero_le k)
      (by omega) hk (fun j _ hjk => hprev j hjk)

/-- **C6.** A cell whose source text is empty or whitespace-only makes
`waitForCellRun` return `null` immediately: no prompt-marker wait, no
markdown wait, no DOM polling. -/
theorem waitForCellRun_whitespace_source
    (cell : CellInfo) (dom : Nat → Option String) (fuel timeoutMs : Nat)
    (h : cell.sourceText.toList.all Char.isWhitespace = true) :
    waitForCellRun cell dom fuel timeoutMs = ([], .null) := by
  unfold waitForCellRun
  rw [h]
  simp

/-- Witness for C6: a code cell whose source is spaces, a newline and a tab
resolves `null` with an empty action list. -/
theorem waitForCellRun_whitespace_source_witness :
    waitForCellRun ⟨.code, "  \n\t "⟩ (fun _ => some "out") 50 2000 = ([], .null) :=
  waitForCellRun_whitespace_source ⟨.code, "  \n\t "⟩ (fun _ => some "out") 50 2000
    (by decide)

/-- A check that observes the loading placeholder continues polling and never
resolves; it arms the timeout if unarmed, otherwise keeps the arming time. -/
theorem checkIfDone_placeholder (dom : Nat → Option String) (t : Nat) (s : PollSt)
    (h : dom t = some loadingPlaceholder) :
    checkIfDone dom t s = .inr ⟨s.numTries + 1, some (s.armedAt.getD t)⟩ := by
  cases har : s.armedAt <;> simp [checkIfDone, h, har]

/-- A due timeout (expiry at or before the tick time, placeholder still
showing) resolves `null` at its expiry time. -/
theorem pollStep_armed_due (dom : Nat → Option String) (timeoutMs t a n : Nat)
    (hle : a + timeoutMs ≤ t) (hdom : dom t = some loadingPlaceholder) :
    pollStep dom timeoutMs t ⟨n, some a⟩ = .inl (.nothing (a + timeoutMs)) := by
  rcases Nat.lt_or_ge (a + timeoutMs) t with hlt | hge
  · have hfired : timeoutFired timeoutMs t (some a) = true := by
      simp [timeoutFired, hlt]
    simp [pollStep, hfired, expiryOf]
  · have heq : a + timeoutMs = t := by omega
    by_cases ha : a = 0
    · have hfired : timeoutFired timeoutMs t (some a) = true := by
        simp [timeoutFired, heq, ha]
        omega
      simp [pollStep, hfired, expiryOf, heq]
    · have hfired : timeoutFired timeoutMs t (some a) = false := by
        simp [timeoutFired, ha]
        omega
      have htied : timeoutTied timeoutMs t (some a) = true := by
        simp [timeoutTied, heq]
      rw [pollStep, hfired, if_neg (by simp), checkIfDone_placeholder dom t _ hdom]
      simp [htied, expiryOf, heq]

/-- A pending timeout (expiry strictly after the tick time, placeholder still
showing) lets polling continue with the arming time unchanged. -/
theorem pollStep_armed_pending (dom : Nat → Option String) (timeoutMs t a n : Nat)
    (hlt : t < a + timeoutMs) (hdom : dom t = some loadingPlaceholder) :
    pollStep dom timeoutMs t ⟨n, some a⟩ = .inr ⟨n + 1, some a⟩ := by
  have hfired : timeoutFired timeoutMs t (some a) = false := by
    simp [timeoutFired]
    omega
  have htied : timeoutTied timeoutMs t (some a) = false := by
    simp [timeoutTied]
    omega
  rw [pollStep, hfired, if_neg (by simp), checkIfDone_placeholder dom t _ hdom]
  simp [htied]

/-- Before its timeout expires, a tick observing non-placeholder output
resolves with that output (cancelling the timeout). -/
theorem pollStep_armed_output (dom : Nat → Option String) (timeoutMs t a n : Nat)
    (txt : String) (hlt : t < a + timeoutMs) (hdom : dom t = some txt)
    (hne : txt ≠ loadingPlaceholder) :
    pollStep dom timeoutMs t ⟨n, some a⟩ = .inl (.output t txt) := by
  have hfired : timeoutFired timeoutMs t (some a) = false := by
    simp [timeoutFired]
    omega
  rw [pollStep, hfired, if_neg (by simp)]
  simp [checkIfDone, hdom, hne]

/-- An unarmed tick observing the placeholder arms the timeout at the tick
time and keeps polling (for a positive timeout). -/
theorem pollStep_unarmed_placeholder (dom : Nat → Option String)
    (timeoutMs t n : Nat) (hdom : dom t = some loadingPlaceholder)
    (htm : 0 < timeoutMs) :
    pollStep dom timeoutMs t ⟨n, none⟩ = .inr ⟨n + 1, some t⟩ := by
  have htied : timeoutTied timeoutMs t (some t) = false := by
    simp [timeoutTied]
    omega
  rw [pollStep, timeoutFired, if_neg (by simp), checkIfDone_placeholder dom t _ hdom]
  simp [htied]

/-- An unarmed tick observing non-placeholder output resolves with it. -/
theorem pollStep_unarmed_output (dom : Nat → Option String) (timeoutMs t n : Nat)
    (txt : String) (hdom : dom t = some txt) (hne : txt ≠ loadingPlaceholder) :
    pollStep dom timeoutMs t ⟨n, none⟩ = .inl (.output t txt) := by
  rw [pollStep, timeoutFired, if_neg (by simp)]
  simp [checkIfDone, hdom, hne]

/-- The very first check (numTries = 0) does not treat a missing output node
as completion: polling continues. -/
theorem pollStep_unarmed_none_first (dom : Nat → Option String)
    (timeoutMs t : Nat) (hdom : dom t = none) :
    pollStep dom timeoutMs t ⟨0, none⟩ = .inr ⟨1, none⟩ := by
  rw [pollStep, timeoutFired, if_neg (by simp)]
  simp [checkIfDone, hdom, timeoutTied]

/-- From the second check onward (numTries > 0), a missing output node
resolves `null` at the tick time. -/
theorem pollStep_none_later (dom : Nat → Option String) (timeoutMs t n : Nat)
    (ar : Option Nat) (hn : 0 < n) (hdom : dom t = none)
    (hnofire : timeoutFired timeoutMs t ar = false) :
    pollStep dom timeoutMs t ⟨n, ar⟩ = .inl (.nothing t) := by
  rw [pollStep, hnofire, if_neg (by simp)]
  simp [checkIfDone, hdom, hn]

/-- Unfolding of one round of the code-cell polling loop. -/
theorem pollRun_succ (dom : Nat → Option String) (timeoutMs fuel k : Nat)
    (s : PollSt) :
    pollRun dom timeoutMs (fuel + 1) k s =
      match pollStep dom timeoutMs (200 * k) s with
      | .inl r => r
      | .inr s' => pollRun dom timeoutMs fuel (k + 1) s' := rfl

/-- **C5.** The first poll iteration of the code-cell loop never treats the
absence of an output node as completion; from the second iteration onward
(`numTries > 0`), observing no output node resolves the call with `null` —
in particular a run seeing no output on its first two checks resolves `null`
exactly on the second check. -/
theorem pollRun_no_output_grace :
    (∀ (dom : Nat → Option String) (t : Nat) (ar : Option Nat),
      dom t = none → checkIfDone dom t ⟨0, ar⟩ = .inr ⟨1, ar⟩) ∧
    (∀ (dom : Nat → Option String) (t n : Nat) (ar : Option Nat),
      0 < n → dom t = none → checkIfDone dom t ⟨n, ar⟩ = .inl (.nothing t)) ∧
    (∀ (dom : Nat → Option String) (timeoutMs fuel : Nat),
      dom 0 = none → dom 200 = none →
      pollRun dom timeoutMs (fuel + 2) 0 ⟨0, none⟩ = .nothing 200) := by
  refine ⟨?_, ?_, ?_⟩
  · intro dom t ar h
    simp [checkIfDone, h]
  · intro dom t n ar hn h
    simp [checkIfDone, h, hn]
  · intro dom timeoutMs fuel h0 h200
    show pollRun dom timeoutMs (fuel + 1 + 1) 0 ⟨0, none⟩ = .nothing 200
    rw [pollRun_succ, show 200 * 0 = 0 from rfl,
      pollStep_unarmed_none_first dom timeoutMs 0 h0]
    show pollRun dom timeoutMs (fuel + 1) 1 ⟨1, none⟩ = .nothing 200
    rw [pollRun_succ, show 200 * 1 = 200 from rfl,
      pollStep_none_later dom timeoutMs 200 1 none (by omega) h200 rfl]

/-- Witness for C5: with no output node ever appearing, the first check
continues, the second check resolves `null` at time 200. -/
theorem pollRun_no_output_grace_witness :
    checkIfDone (fun _ => none) 0 ⟨0, none⟩ = .inr ⟨1, none⟩ ∧
    checkIfDone (fun _ => none) 200 ⟨1, none⟩ = .inl (.nothing 200) ∧
    pollRun (fun _ => none) 2000 2 0 ⟨0, none⟩ = .nothing 200 :=
  ⟨pollRun_no_output_grace.1 (fun _ => none) 0 none rfl,
   pollRun_no_output_grace.2.1 (fun _ => none) 200 1 none (by omega) rfl,
   pollRun_no_output_grace.2.2 (fun _ => none) 2000 0 rfl rfl⟩

/-- While the placeholder keeps showing, an armed run resolves `null` at
exactly the timeout expiry. -/
theorem pollRun_armed_stalled (dom : Nat → Option String) (timeoutMs a : Nat) :
    ∀ fuel k n, (∀ j, k ≤ j → dom (200 * j) = some loadingPlaceholder) →
      a + timeoutMs ≤ 200 * (k + fuel) →
      pollRun dom timeoutMs (fuel + 1) k ⟨n, some a⟩ = .nothing (a + timeoutMs) := by
  intro fuel
  induction fuel with
  | zero =>
    intro k n hdom hle
    rw [pollRun_succ, pollStep_armed_due dom timeoutMs (200 * k) a n
      (by omega) (hdom k le_rfl)]
  | succ f ih =>
    intro k n hdom hle
    rcases Nat.lt_or_ge (200 * k) (a + timeoutMs) with hpend | hdue
    · rw [pollRun_succ, pollStep_armed_pending dom timeoutMs (200 * k) a n hpend
        (hdom k le_rfl)]
      exact ih (k + 1) (n + 1) (fun j hj => hdom j (by omega)) (by omega)
    · rw [pollRun_succ, pollStep_armed_due dom timeoutMs (200 * k) a n hdue
        (hdom k le_rfl)]

/-- While the placeholder keeps showing before real output appears at check
`m` (before the timeout expiry), an armed run resolves with that output. -/
theorem pollRun_armed_output_first (dom : Nat → Option String)
    (timeoutMs m : Nat) (txt : String)
    (hph : ∀ j, j < m → dom (200 * j) = some loadingPlaceholder)
    (hout : dom (200 * m) = some txt) (hne : txt ≠ loadingPlaceholder)
    (hexp : 200 * m < timeoutMs) :
    ∀ fuel k n, k ≤ m → m ≤ k + fuel →
      pollRun dom timeoutMs (fuel + 1) k ⟨n, some 0⟩ = .output (200 * m) txt := by
  intro fuel
  induction fuel with
  | zero =>
    intro k n hkm hmk
    have hk : k = m := by omega
    subst hk
    rw [pollRun_succ, pollStep_armed_output dom timeoutMs (200 * k) 0 n txt
      (by omega) hout hne]
  | succ f ih =>
    intro k n hkm hmk
    rcases Nat.eq_or_lt_of_le hkm with heq | hlt
    · subst heq
      rw [pollRun_succ, pollStep_armed_output dom timeoutMs (200 * k) 0 n txt
        (by omega) hout hne]
    · rw [pollRun_succ, pollStep_armed_pending dom timeoutMs (200 * k) 0 n
        (by omega) (hph k hlt)]
      exact ih (k + 1) (n + 1) hlt (by omega)

/-- **C4.** In the code-cell polling loop: a check observing the placeholder
arms the one-shot timeout at the tick time if unarmed and never re-arms an
armed one; once armed at `a`, if the placeholder is still showing at every
later check the run resolves `null` at a time within
`[a + timeoutMs, a + timeoutMs + 200]` (in fact exactly `a + timeoutMs`);
and if non-placeholder output appears at a check before the expiry, the run
resolves with that output instead (the timeout is cancelled). -/
theorem pollRun_placeholder_timeout :
    (∀ (dom : Nat → Option String) (t : Nat) (s s' : PollSt),
      checkIfDone dom t s = .inr s' →
      ∀ a, s.armedAt = some a → s'.armedAt = some a) ∧
    (∀ (dom : Nat → Option String) (t n : Nat),
      dom t = some loadingPlaceholder →
      checkIfDone dom t ⟨n, none⟩ = .inr ⟨n + 1, some t⟩) ∧
    (∀ (dom : Nat → Option String) (timeoutMs a fuel k n : Nat),
      (∀ j, k ≤ j → dom (200 * j) = some loadingPlaceholder) →
      a + timeoutMs ≤ 200 * (k + fuel) →
      ∃ T, pollRun dom timeoutMs (fuel + 1) k ⟨n, some a⟩ = .nothing T ∧
        a + timeoutMs ≤ T ∧ T ≤ a + timeoutMs + 200) ∧
    (∀ (dom : Nat → Option String) (timeoutMs fuel m : Nat) (txt : String),
      (∀ j, j < m → dom (200 * j) = some loadingPlaceholder) →
      dom (200 * m) = some txt → txt ≠ loadingPlaceholder →
      200 * m < timeoutMs → m ≤ fuel →
      pollRun dom timeoutMs (fuel + 2) 0 ⟨0, none⟩ = .output (200 * m) txt) := by
  refine ⟨?_, ?_, ?_, ?_⟩
  · intro dom t s s' hstep a ha
    rcases hd : dom t with _ | txt
    · rw [checkIfDone, hd] at hstep
      by_cases hn : 0 < s.numTries
      · simp [hn] at hstep
      · simp [hn] at hstep
        rw [← hstep, ha]
    · rw [checkIfDone, hd] at hstep
      by_cases hph : txt = loadingPlaceholder
      · simp [hph, ha] at hstep
        rw [← hstep]
      · simp [hph] at hstep
  · intro dom t n h
    rw [checkIfDone_placeholder dom t _ h]
    rfl
  · intro dom timeoutMs a fuel k n hdom hle
    exact ⟨a + timeoutMs,
      pollRun_armed_stalled dom timeoutMs a fuel k n hdom hle, le_rfl, by omega⟩
  · intro dom timeoutMs fuel m txt hph hout hne hexp hfuel
    cases m with
    | zero =>
      show pollRun dom timeoutMs (fuel + 1 + 1) 0 ⟨0, none⟩ = .output (200 * 0) txt
      rw [pollRun_succ, show 200 * 0 = 0 from rfl,
        pollStep_unarmed_output dom timeoutMs 0 0 txt hout hne]
    | succ m' =>
      show pollRun dom timeoutMs (fuel + 1 + 1) 0 ⟨0, none⟩ = _
      rw [pollRun_succ, show 200 * 0 = 0 from rfl,
        pollStep_unarmed_placeholder dom timeoutMs 0 0
          (by simpa using hph 0 (by omega)) (by omega)]
      exact pollRun_armed_output_first dom timeoutMs (m' + 1) txt hph hout hne hexp
        fuel 1 1 (by omega) (by omega)

/-- Witness for C4: with the placeholder showing forever, the run armed at
time 0 resolves `null` at a time in `[2000, 2200]`; arming is recorded at the
first check and preserved by the next; and with real output `"42"` appearing
at check 2 (time 400, before the 2000 ms expiry), the run resolves with it. -/
theorem pollRun_placeholder_timeout_witness :
    checkIfDone (fun _ => some loadingPlaceholder) 0 ⟨0, none⟩ = .inr ⟨1, some 0⟩ ∧
    (⟨2, some 0⟩ : PollSt).armedAt = some 0 ∧
    (∃ T, pollRun (fun _ => some loadingPlaceholder) 2000 11 1 ⟨1, some 0⟩ =
        .nothing T ∧ 2000 ≤ T ∧ T ≤ 2200) ∧
    pollRun (fun t => if t < 400 then some loadingPlaceholder else some "42")
        2000 4 0 ⟨0, none⟩ = .output 400 "42" := by
  refine ⟨pollRun_placeholder_timeout.2.1 (fun _ => some loadingPlaceholder) 0 0 rfl,
    ?_, ?_, ?_⟩
  · exact pollRun_placeholder_timeout.1 (fun _ => some loadingPlaceholder) 200
      ⟨1, some 0⟩ ⟨2, some 0⟩ (by decide) 0 rfl
  · have h := pollRun_placeholder_timeout.2.2.1 (fun _ => some loadingPlaceholder)
      2000 0 10 1 1 (fun _ _ => rfl) (by omega)
    simpa using h
  · have h := pollRun_placeholder_timeout.2.2.2
      (fun t => if t < 400 then some loadingPlaceholder else some "42")
      2000 2 2 "42" ?_ (by norm_num) (by decide) (by omega) (by omega)
    · simpa using h
    · intro j hj
      interval_cases j <;> norm_num

/-- With a supplied post-run callback, one orchestrator iteration contributes
exactly the pair run-cell-`i`, after-cell-run-`i` to the run/post-run
projection of the trace. -/
theorem runCellStep_filterMap (i : Nat) (c : NotebookRunCallback) (env : CellEnv)
    (h : c.hasOnAfterCellRun = true) :
    (runCellStep i (some c) env).filterMap runAfterKey =
      [.inl i, .inr i] := by
  simp only [runCellStep, h, if_true, List.filterMap_append]
  split_ifs <;> simp [runAfterKey, List.filterMap_cons]

/-- The run/post-run projection of the orchestrator loop over `count` cells
starting at `i` is the strict interleaving run `i`, after `i`, run `i+1`, ... -/
theorem orchLoop_filterMap (c : NotebookRunCallback) (envs : Nat → CellEnv)
    (h : c.hasOnAfterCellRun = true) :
    ∀ count i, (orchLoop (some c) envs count i).filterMap runAfterKey =
      runAfterSeq count i := by
  intro count
  induction count with
  | zero => intro i; simp [orchLoop, runAfterSeq]
  | succ n ih =>
    intro i
    rw [orchLoop, runAfterSeq, List.filterMap_append,
      runCellStep_filterMap i c (envs i) h, ih]
    rfl

/-- **C7.** With a callback supplying `onAfterCellRun`, the orchestrator's
trace, projected to cell-run triggers and post-run callback invocations, is
exactly run 0, after 0, run 1, after 1, ..., run (n-1), after (n-1): the
callback is invoked exactly once per index, in strictly increasing order,
and completes before the next cell's run is triggered. -/
theorem runActiveNotebookCellByCell_afterCellRun_order
    (numCells : Nat) (c : NotebookRunCallback) (envs : Nat → CellEnv)
    (h : c.hasOnAfterCellRun = true) :
    (runActiveNotebookCellByCell numCells (some c) envs).filterMap runAfterKey =
      runAfterSeq numCells 0 := by
  by_cases hn : numCells = 0
  · subst hn
    simp [runActiveNotebookCellByCell, runAfterSeq]
  · rw [runActiveNotebookCellByCell, if_neg hn, List.filterMap_cons]
    exact orchLoop_filterMap c envs h numCells 0

/-- Witness for C7: a two-cell notebook with all callbacks supplied yields
the projection run 0, after 0, run 1, after 1. -/
theorem runActiveNotebookCellByCell_afterCellRun_order_witness :
    (runActiveNotebookCellByCell 2 (some ⟨true, true, true⟩)
        (fun _ => ⟨⟨0, 400⟩, 700, 700, false, 0, 300⟩)).filterMap runAfterKey =
      [.inl 0, .inr 0, .inl 1, .inr 1] :=
  runActiveNotebookCellByCell_afterCellRun_order 2 ⟨true, true, true⟩
    (fun _ => ⟨⟨0, 400⟩, 700, 700, false, 0, 300⟩) rfl

/-- **C1 (evaluation at the failing input).** With a scroll predicted
(anchor bottom 700, viewport top 0, height 400, threshold 45) and
`onAfterScroll` supplied, the code logs the `'Notebook scroll mispredicted!'`
diagnostic exactly when the scroll position DID change (`newScroll = 300`
vs `prevScroll = 0`), and logs nothing when the position did NOT change —
the opposite of the specified condition.  The full trace of the changed-case
run also shows the log is non-fatal: `onAfterScroll` still follows it. -/
theorem runActiveNotebookCellByCell_mispredict_log_eval :
    (OrchEvent.logScrollMispredicted 0 ∈
      runActiveNotebookCellByCell 1 (some ⟨true, true, true⟩)
        (fun _ => ⟨⟨0, 400⟩, 700, 700, false, 0, 300⟩)) ∧
    (OrchEvent.logScrollMispredicted 0 ∉
      runActiveNotebookCellByCell 1 (some ⟨true, true, true⟩)
        (fun _ => ⟨⟨0, 400⟩, 700, 700, false, 0, 0⟩)) ∧
    runActiveNotebookCellByCell 1 (some ⟨true, true, true⟩)
        (fun _ => ⟨⟨0, 400⟩, 700, 700, false, 0, 300⟩) =
      [.deselectAll, .setActiveCellIndex 0, .selectCell 0, .runCell 0,
       .waitCellRun 0, .onAfterCellRun 0, .onBeforeScroll 0,
       .scrollToPosition 700 45, .update, .logScrollMispredicted 0,
       .onAfterScroll 0] := by
  have hws : notebookWillScroll ⟨0, 400⟩ 700 45 = true := by
    simp only [notebookWillScroll, decide_eq_true_eq]
    rw [show (700 : ℚ) - 0 - 400 / 2 = 500 by norm_num,
      abs_of_nonneg (by norm_num : (0 : ℚ) ≤ 500)]
    norm_num
  have htrace : runActiveNotebookCellByCell 1 (some ⟨true, true, true⟩)
      (fun _ => ⟨⟨0, 400⟩, 700, 700, false, 0, 300⟩) =
      [.deselectAll, .setActiveCellIndex 0, .selectCell 0, .runCell 0,
       .waitCellRun 0, .onAfterCellRun 0, .onBeforeScroll 0,
       .scrollToPosition 700 45, .update, .logScrollMispredicted 0,
       .onAfterScroll 0] := by
    rw [runActiveNotebookCellByCell, if_neg (by omega)]
    simp only [orchLoop, runCellStep, hws]
    norm_num [hws]
  have htrace2 : runActiveNotebookCellByCell 1 (some ⟨true, true, true⟩)
      (fun _ => ⟨⟨0, 400⟩, 700, 700, false, 0, 0⟩) =
      [.deselectAll, .setActiveCellIndex 0, .selectCell 0, .runCell 0,
       .waitCellRun 0, .onAfterCellRun 0, .onBeforeScroll 0,
       .scrollToPosition 700 45, .update, .onAfterScroll 0] := by
    rw [runActiveNotebookCellByCell, if_neg (by omega)]
    simp only [orchLoop, runCellStep, hws]
    norm_num [hws]
  refine ⟨?_, ?_, htrace⟩
  · rw [htrace]
    simp
  · rw [htrace2]
    simp

/-- Witness for C9: a match is present on ticks 0 and 1 and removed on
tick 2; the wait resolves exactly on tick 2, with no value. -/
theorem waitForSelector_hidden_resolves_on_removal_witness :
    waitForSelector (fun j => if j < 2 then some 7 else none) (some ⟨true⟩) 5 0 =
      some (2, none) ∧
    (fun j => if j < 2 then some 7 else none : Nat → Option Nat) 2 = none := by
  refine ⟨?_, by decide⟩
  exact (waitForSelector_hidden_resolves_on_removal
      (fun j => if j < 2 then some 7 else none) 5 2).2
    (by decide) (by decide) (by decide)

end Galata
